import Mathlib

/-!
Shallow embedding of `src/fetch_pubmed_fulltext.py` (class `PubMedFetcher`).

Python strings are modelled as Lean `String`, Python `None`-able strings as
`Option String` (`none` = Python `None`).  XML element trees
(`xml.etree.ElementTree`) are modelled by the inductive `Element` below; an
element's `text`/`tail` attributes are `Option String` exactly as in
ElementTree, where an empty element has `text = None`.  Network calls and the
HTML parser are abstracted as oracle inputs; every pure computation of the
source (string cleanup, threshold checks, metadata field extraction, record
serialization, batch tallying) is embedded faithfully.
-/

namespace PubMedFetch

/-- Model of Python's whitespace class `\s` (ASCII range), used by
`str.strip`, `re \s` and `str.splitlines`. -/
def pyIsSpace (c : Char) : Bool :=
  c == ' ' || c == '\t' || c == '\n' || c == '\r' || c == '\x0b' || c == '\x0c'

/-- Model of Python's word-character class `\w` (ASCII range):
alphanumeric or underscore. -/
def pyIsWordChar (c : Char) : Bool :=
  c.isAlphanum || c == '_'

/-- Model of Python `str.strip()` on a character list: drop whitespace from
both ends. -/
def pyStripList (l : List Char) : List Char :=
  ((l.dropWhile pyIsSpace).reverse.dropWhile pyIsSpace).reverse

/-- Model of Python `str.strip()`. -/
def pyStrip (s : String) : String :=
  String.mk (pyStripList s.data)

/-- Core of `re.sub(r'\s+', rep, ·)`: every maximal run of whitespace
characters is replaced by the single character `rep`.  The `Bool` flag
records whether the previous character belonged to a whitespace run. -/
def subRunsAux (rep : Char) : Bool → List Char → List Char
  | _, [] => []
  | prev, c :: rest =>
    if pyIsSpace c then
      if prev then subRunsAux rep true rest
      else rep :: subRunsAux rep true rest
    else c :: subRunsAux rep false rest

/-- Model of `re.sub(r'\s+', rep, s)` (with `rep` a single character, the
only uses in the source: `' '` in `fetch_from_pmc`, `'_'` in
`clean_filename`). -/
def pySubSpaceRuns (rep : Char) (s : String) : String :=
  String.mk (subRunsAux rep false s.data)

/-- Core of `re.sub(r'\n\n+', '\n\n', ·)`: of every maximal run of `n ≥ 2`
newlines only the first two are kept; single newlines are untouched.  `k`
counts the newlines of the current run seen so far. -/
def collapseNNAux : Nat → List Char → List Char
  | _, [] => []
  | k, c :: rest =>
    if c == '\n' then
      if k < 2 then '\n' :: collapseNNAux (k + 1) rest
      else collapseNNAux (k + 1) rest
    else c :: collapseNNAux 0 rest

/-- Model of `re.sub(r'\n\n+', '\n\n', s)` in `extract_text_from_html`. -/
def pyCollapseNN (s : String) : String :=
  String.mk (collapseNNAux 0 s.data)

/-- Model of Python `str.splitlines()` on a character list: split at
`\r\n`, `\n` or `\r`; a trailing line terminator produces no extra empty
line, and the empty string yields the empty list. -/
def pySplitLinesAux : List Char → List Char → List String
  | acc, [] => if acc.isEmpty then [] else [String.mk acc.reverse]
  | acc, '\r' :: '\n' :: rest => String.mk acc.reverse :: pySplitLinesAux [] rest
  | acc, '\n' :: rest => String.mk acc.reverse :: pySplitLinesAux [] rest
  | acc, '\r' :: rest => String.mk acc.reverse :: pySplitLinesAux [] rest
  | acc, c :: rest => pySplitLinesAux (c :: acc) rest

/-- Model of Python `str.splitlines()`. -/
def pySplitLines (s : String) : List String :=
  pySplitLinesAux [] s.data

/-- Python truthiness of an optional string: `None` and `""` are falsy,
every other string is truthy. -/
def pyTruthy : Option String → Bool
  | none => false
  | some s => s != ""

/-- Boolean string-head test used to state line omission: `p.data` is a
prefix of `s.data`. -/
def strStartsWith (s p : String) : Bool :=
  p.data.isPrefixOf s.data

/-- Model of an `xml.etree.ElementTree` element: tag, attribute list,
`text` (the text before the first child, `none` when absent), children in
document order, and `tail` (the text following the element's end tag,
`none` when absent). -/
inductive Element where
  | mk (tag : String) (attrs : List (String × String)) (text : Option String)
       (children : List Element) (tail : Option String)

/-- Tag of an element. -/
def Element.tagOf : Element → String
  | .mk t _ _ _ _ => t

/-- Attribute list of an element. -/
def Element.attrsOf : Element → List (String × String)
  | .mk _ a _ _ _ => a

/-- Model of ElementTree's `elem.text`. -/
def Element.textOf : Element → Option String
  | .mk _ _ t _ _ => t

/-- Children of an element, in document order. -/
def Element.childrenOf : Element → List Element
  | .mk _ _ _ c _ => c

/-- Model of ElementTree's `elem.tail`. -/
def Element.tailOf : Element → Option String
  | .mk _ _ _ _ t => t

/-- Model of `elem.get(name)`: first attribute with the given name, `none`
when absent (XML attributes are unique per element). -/
def getAttr (e : Element) (name : String) : Option String :=
  (e.attrsOf.lookup name)

mutual
/-- First element with the given tag among a list of subtrees, searched in
document (pre-)order; helper for `find('.//tag')`. -/
def findDescList (tag : String) : List Element → Option Element
  | [] => none
  | c :: cs =>
    if c.tagOf = tag then some c
    else match findDescInside tag c with
      | some r => some r
      | none => findDescList tag cs
/-- Model of ElementTree `e.find('.//tag')`: first proper descendant of `e`
with the given tag, in document order. -/
def findDescInside (tag : String) : Element → Option Element
  | .mk _ _ _ cs _ => findDescList tag cs
end

mutual
/-- All elements with the given tag inside a list of subtrees, in document
order (nested matches included); helper for `findall('.//tag')`. -/
def findAllDescList (tag : String) : List Element → List Element
  | [] => []
  | c :: cs =>
    (if c.tagOf = tag then [c] else []) ++ findAllDescInside tag c
      ++ findAllDescList tag cs
/-- Model of ElementTree `e.findall('.//tag')`: all proper descendants of
`e` with the given tag, in document order. -/
def findAllDescInside (tag : String) : Element → List Element
  | .mk _ _ _ cs _ => findAllDescList tag cs
end

/-- Model of ElementTree `e.find('tag')`: first direct child with the
given tag. -/
def findChild (tag : String) (e : Element) : Option Element :=
  e.childrenOf.find? (fun c => c.tagOf = tag)

/-- Model of ElementTree `e.findall('tag')`: all direct children with the
given tag, in order. -/
def findAllChild (tag : String) (e : Element) : List Element :=
  e.childrenOf.filter (fun c => c.tagOf = tag)

mutual
/-- Model of ElementTree `''.join(e.itertext())` input: the text fragments
of the subtree rooted at `e`, in document order (each element's `text`,
then, per child, the child's fragments followed by the child's `tail`). -/
def itertexts : Element → List String
  | .mk _ _ tx cs _ => tx.toList ++ itertextsList cs
/-- Text fragments of a list of subtrees, with each subtree's `tail`
appended after it. -/
def itertextsList : List Element → List String
  | [] => []
  | c :: cs => itertexts c ++ c.tailOf.toList ++ itertextsList cs
end

/-- Parsed article metadata, mirroring the dict returned by
`PubMedFetcher.parse_metadata`.  Fields that the source assigns from
ElementTree `.text` attributes are `Option String`, since `.text` is
Python `None` for an element without text; the parser's own defaults are
`some ""`.  An author entry is `none` exactly when the source appends the
Python value `None` (a `LastName` element with no text and no `ForeName`
sibling). -/
structure Metadata where
  title : String
  abstract : String
  authors : List (Option String)
  journal : Option String
  year : Option String
  doi : Option String
  pmc_id : Option String

/-- Rendering of an optional string inside a Python f-string:
`None` prints as the literal `"None"`. -/
def fmtPyOpt : Option String → String
  | none => "None"
  | some s => s

/-- One iteration of the author loop of `parse_metadata`: entries without a
`LastName` child are skipped (`none` here, dropped by `filterMap`); with a
`ForeName` child the entry is the f-string `"{forename} {lastname}"`, else
it is `LastName`'s raw `.text` (possibly Python `None`). -/
def authorEntry (a : Element) : Option (Option String) :=
  match findChild "LastName" a with
  | none => none
  | some ln =>
    match findChild "ForeName" a with
    | none => some ln.textOf
    | some fn => some (some (fmtPyOpt fn.textOf ++ " " ++ fmtPyOpt ln.textOf))

/-- One iteration of the `ArticleId` loop of `parse_metadata`: an entry of
`IdType` `doi` overwrites the doi accumulator with its `.text`, an entry of
`IdType` `pmc` overwrites the pmc accumulator, anything else is ignored. -/
def scanIdStep (acc : Option String × Option String) (aid : Element) :
    Option String × Option String :=
  if getAttr aid "IdType" = some "doi" then (aid.textOf, acc.2)
  else if getAttr aid "IdType" = some "pmc" then (acc.1, aid.textOf)
  else acc

/-- The `ArticleId` scan of `parse_metadata`, starting from the defaults
`doi = ""`, `pmc_id = ""`; returns `(doi, pmc_id)`. -/
def scanIds (ids : List Element) : Option String × Option String :=
  ids.foldl scanIdStep (some "", some "")

/-- One abstract segment of `parse_metadata`: `"{label}: {text}"` when a
`Label` attribute is present and non-empty, else the bare text, where the
text is `''.join(seg.itertext())`. -/
def abstractSegment (seg : Element) : String :=
  let label := (getAttr seg "Label").getD ""
  let text := String.join (itertexts seg)
  if label ≠ "" then label ++ ": " ++ text else text

/-- Model of `PubMedFetcher.parse_metadata`, over an already-parsed XML
root element (string-level XML parsing by `ET.fromstring` is outside the
model; in-model the function body raises no exception, so the `except`
branch is reached only by the `article is None` check's counterpart
`none`). -/
def parseMetadata (root : Element) : Option Metadata :=
  match findDescInside "Article" root with
  | none => none
  | some article =>
    let title :=
      match findDescInside "ArticleTitle" article with
      | none => "Unknown"
      | some t => String.join (itertexts t)
    let abstractParts :=
      match findDescInside "Abstract" article with
      | none => []
      | some ab => (findAllDescInside "AbstractText" ab).map abstractSegment
    let abstract :=
      if abstractParts.isEmpty then "" else String.intercalate "\n\n" abstractParts
    let authors :=
      match findDescInside "AuthorList" article with
      | none => []
      | some al => (findAllDescInside "Author" al).filterMap authorEntry
    let journal : Option String :=
      match findDescInside "Journal" article with
      | none => some ""
      | some j =>
        match findDescInside "Title" j with
        | none => some ""
        | some t => t.textOf
    let year : Option String :=
      match findDescInside "PubDate" article with
      | none => some ""
      | some pd =>
        match findChild "Year" pd with
        | none => some ""
        | some y => y.textOf
    let ids :=
      match findDescInside "ArticleIdList" root with
      | none => (some "", some "")
      | some l => scanIds (findAllChild "ArticleId" l)
    some {
      title := title
      abstract := abstract
      authors := authors
      journal := journal
      year := year
      doi := ids.1
      pmc_id := ids.2
    }

/-- Stripped text kept by the collection loop of `fetch_from_pmc`:
a fragment is appended (stripped) exactly when it is present and its strip
is non-empty (`if elem.text and elem.text.strip()`). -/
def keepStripped : Option String → List String
  | none => []
  | some s => if pyStrip s = "" then [] else [pyStrip s]

mutual
/-- Text collection of `fetch_from_pmc` over one subtree: `root.iter()`
yields elements in pre-order, and for each yielded element the loop
appends its stripped `text` then its stripped `tail`. -/
def collectParts : Element → List String
  | .mk _ _ tx cs tl => keepStripped tx ++ keepStripped tl ++ collectPartsList cs
/-- Text collection of `fetch_from_pmc` over a list of subtrees. -/
def collectPartsList : List Element → List String
  | [] => []
  | c :: cs => collectParts c ++ collectPartsList cs
end

/-- Cleaned full text of `fetch_from_pmc`: the collected fragments joined
with single spaces, then `re.sub(r'\s+', ' ', ·)`. -/
def pmcCleanText (root : Element) : String :=
  pySubSpaceRuns ' ' (String.intercalate " " (collectParts root))

/-- Model of the extraction tail of `PubMedFetcher.fetch_from_pmc`
(lines 143-157), given the parsed XML of a successful response: clean the
collected text and return it only above the 500-character threshold
(`return full_text if len(full_text) > 500 else None`).  The network fetch
and its exception path (which yields `None`) are outside this pure core. -/
def fetchFromPmcExtract (root : Element) : Option String :=
  let full_text := pmcCleanText root
  if full_text.length > 500 then some full_text else none

/-- Cleaned text of `extract_text_from_html`, given the text string that
`BeautifulSoup`'s `get_text()` produced (the soup itself is not modelled):
strip every line, drop blank lines, re-join with blank-line separators,
then `re.sub(r'\n\n+', '\n\n', ·)`. -/
def htmlCleanText (text : String) : String :=
  let lines := (pySplitLines text).map pyStrip
  let lines := lines.filter (fun l => l != "")
  pyCollapseNN (String.intercalate "\n\n" lines)

/-- Model of the cleanup-and-threshold tail of
`PubMedFetcher.extract_text_from_html` (lines 212-220), from the raw text
of the selected content region: `return text if len(text) > 500 else
None`. -/
def htmlExtractCore (text : String) : Option String :=
  let cleaned := htmlCleanText text
  if cleaned.length > 500 then some cleaned else none

/-- Residual state of the two transient files of `convert_pdf_to_text`
after the call returns: whether the temporary `.pdf` input and `.txt`
output files (created with `delete=False`) have been unlinked. -/
structure PdfTempState where
  pdfRemoved : Bool
  txtRemoved : Bool
deriving DecidableEq, Repr

/-- Model of `PubMedFetcher.convert_pdf_to_text` after both temp files are
written: `toolRun` is the `subprocess.run` outcome (`none` models an
exception such as a 60s timeout, `some rc` a completed run with exit code
`rc`), and `txtContent` the text read back (decoding errors ignored) when
the tool exits 0.  Returns the extraction result and the final state of
the two transient files: `Path.unlink` is executed only inside the
`returncode == 0` branch, before the threshold check. -/
def convertPdfToText (toolRun : Option Int) (txtContent : String) :
    Option String × PdfTempState :=
  match toolRun with
  | none => (none, ⟨false, false⟩)
  | some rc =>
    if rc = 0 then
      let text := txtContent
      (if text.length > 500 then some text else none, ⟨true, true⟩)
    else
      (none, ⟨false, false⟩)

/-- First target URL of `fetch_from_doi`: the canonical resolver
redirect. -/
def doiUrl1 (doi : String) : String :=
  "https://doi.org/" ++ doi

/-- Second target URL of `fetch_from_doi`: the best-effort secondary
lookup. -/
def doiUrl2 (doi : String) : String :=
  "https://www.ncbi.nlm.nih.gov/pmc/articles/pmid/" ++ doi ++ "/"

/-- Loop body of `fetch_from_doi` over the remaining source URLs, with the
HTTP client as oracle `get` (`none` models a raised exception, `some
(status, body)` a response) and the HTML extraction as oracle `extract`.
Returns the result together with the list of URLs actually requested: a
200 response returns `extract body` immediately; an exception or any other
status moves on to the next URL. -/
def tryDoiSources (get : String → Option (Nat × String))
    (extract : String → Option String) : List String → Option String × List String
  | [] => (none, [])
  | u :: rest =>
    match get u with
    | some (status, body) =>
      if status = 200 then (extract body, [u])
      else
        let r := tryDoiSources get extract rest
        (r.1, u :: r.2)
    | none =>
      let r := tryDoiSources get extract rest
      (r.1, u :: r.2)

/-- Model of `PubMedFetcher.fetch_from_doi`: empty doi returns `None`
immediately (no request); otherwise the two templated URLs are tried in
order. -/
def fetchFromDoi (doi : String) (get : String → Option (Nat × String))
    (extract : String → Option String) : Option String × List String :=
  if doi = "" then (none, [])
  else tryDoiSources get extract [doiUrl1 doi, doiUrl2 doi]

/-- Model of `PubMedFetcher.clean_filename`: drop every character that is
neither a word character, nor whitespace, nor a hyphen
(`re.sub(r'[^\w\s-]', '', ·)`); replace every whitespace run by a single
underscore (`re.sub(r'[\s]+', '_', ·)`); truncate to 100 characters
(`text[:100]`). -/
def cleanFilename (text : String) : String :=
  let t := String.mk (text.data.filter
    (fun c => pyIsWordChar c || pyIsSpace c || c == '-'))
  let t := pySubSpaceRuns '_' t
  String.mk (t.data.take 100)

/-- Model of Python `sep.join(items)` over a list that may contain `None`:
`join` raises `TypeError` on any non-string item (`none` here), else
concatenates with the separator. -/
def pyJoinOpt (sep : String) (xs : List (Option String)) : Option String :=
  if xs.any (fun x => x.isNone) then none
  else some (String.intercalate sep (xs.map (fun x => x.getD "")))

/-- The fixed rule part appended by `save_article`:
`"\n" + "=" * 80 + "\n"`. -/
def ruleLine : String :=
  "\n" ++ String.mk (List.replicate 80 '=') ++ "\n"

/-- Model of the `content_parts` list built by `PubMedFetcher.save_article`
(lines 273-298), before the final `"\n\n".join`.  Returns `none` when the
build raises: `', '.join(metadata['authors'])` raises `TypeError` as soon
as the (truthy, hence non-empty) author list contains a Python `None`
entry.  Filesystem writing is outside the model. -/
def buildParts (pmid : String) (md : Metadata) (fullText : Option String) :
    Option (List String) :=
  let p1 := ["PubMed ID: " ++ pmid, "Title: " ++ md.title]
  match (if md.authors.isEmpty then some p1
         else (pyJoinOpt ", " md.authors).map
           (fun a => p1 ++ ["Authors: " ++ a])) with
  | none => none
  | some p2 =>
    let p3 := p2 ++
      (if pyTruthy md.journal then
        ["Journal: " ++ md.journal.getD "" ++
          (if pyTruthy md.year then " (" ++ md.year.getD "" ++ ")" else "")]
       else [])
    let p4 := p3 ++ (if pyTruthy md.doi then ["DOI: " ++ md.doi.getD ""] else [])
    let p5 := p4 ++ [ruleLine]
    let p6 := p5 ++
      (if pyTruthy fullText then ["FULL TEXT:\n", fullText.getD ""]
       else if md.abstract != "" then ["ABSTRACT:\n", md.abstract]
       else ["No full text or abstract available."])
    some p6

/-- The document content written by `save_article`:
`"\n\n".join(content_parts)` (when no exception is raised). -/
def saveArticleContent (pmid : String) (md : Metadata) (fullText : Option String) :
    Option String :=
  (buildParts pmid md fullText).map (String.intercalate "\n\n")

/-- Termination of one `process_pmid` call: a returned boolean, or an
uncaught exception propagating to the caller. -/
inductive POutcome where
  | ok (b : Bool)
  | exn
deriving DecidableEq, Repr

/-- Observable result of one `process_pmid` call: its termination, and
whether the PMC and DOI full-text extractors were invoked. -/
structure ProcResult where
  outcome : POutcome
  pmcAttempted : Bool
  doiAttempted : Bool
deriving DecidableEq, Repr

/-- Oracle environment for one `process_pmid` call: the metadata fetch
response (`none` = exception inside `fetch_article_metadata`, already
caught there and returned as `None`), the metadata parser, and the two
full-text extractors (each already returning `None` on their internal
failures). -/
structure FetchWorld where
  metaXml : Option String
  parseMeta : String → Option Metadata
  pmcFetch : String → Option String
  doiFetch : String → Option String

/-- Model of `PubMedFetcher.process_pmid`: fail fast (returning `False`)
when the metadata response is `None` or empty (`if not xml_data`) or the
parse returns `None`; otherwise try PMC when `pmc_id` is truthy, then DOI
when the running full text is still falsy and `doi` is truthy, and save.
Saving raises (outcome `.exn`) exactly when `buildParts` does. -/
def processPmid (w : FetchWorld) (pmid : String) : ProcResult :=
  match w.metaXml with
  | none => ⟨.ok false, false, false⟩
  | some xml =>
    if xml = "" then ⟨.ok false, false, false⟩
    else
      match w.parseMeta xml with
      | none => ⟨.ok false, false, false⟩
      | some md =>
        let pmcAtt := pyTruthy md.pmc_id
        let ft1 : Option String := if pmcAtt then w.pmcFetch (md.pmc_id.getD "") else none
        let doiAtt := !pyTruthy ft1 && pyTruthy md.doi
        let ft := if doiAtt then w.doiFetch (md.doi.getD "") else ft1
        match buildParts pmid md ft with
        | none => ⟨.exn, pmcAtt, doiAtt⟩
        | some _ => ⟨.ok true, pmcAtt, doiAtt⟩

/-- Per-identifier outcome as seen by the batch driver's loop body:
`process_pmid` returned a boolean, or raised (any exception is caught by
the driver). -/
inductive RunOutcome where
  | ok (b : Bool)
  | exn
deriving DecidableEq, Repr

/-- Final tally of `process_pmid_list`: total, succeeded, failed. -/
structure BatchTally where
  total : Nat
  succeeded : Nat
  failed : Nat
deriving DecidableEq, Repr

/-- One step of the driver loop: `True` increments the success counter;
`False` or a caught exception increments the failure counter. -/
def tallyStep (acc : Nat × Nat) (o : RunOutcome) : Nat × Nat :=
  match o with
  | .ok true => (acc.1 + 1, acc.2)
  | .ok false => (acc.1, acc.2 + 1)
  | .exn => (acc.1, acc.2 + 1)

/-- Model of `PubMedFetcher.process_pmid_list`: read the identifier list
(strip each line, ignore blank lines), run each identifier through
`process_pmid` (outcome given by the oracle `run`), and tally.  The
inter-request `time.sleep` pacing has no observable effect in the model. -/
def processPmidList (lines : List String) (run : String → RunOutcome) : BatchTally :=
  let pmids := (lines.map pyStrip).filter (fun l => l != "")
  let counts := pmids.foldl (fun acc p => tallyStep acc (run p)) (0, 0)
  ⟨pmids.length, counts.1, counts.2⟩

/-! Helper lemmas. -/

/-- One driver-loop step increments exactly one of the two counters. -/
theorem tallyStep_sum (acc : Nat × Nat) (o : RunOutcome) :
    (tallyStep acc o).1 + (tallyStep acc o).2 = acc.1 + acc.2 + 1 := by
  cases o with
  | ok b => cases b <;> simp [tallyStep] <;> omega
  | exn => simp [tallyStep]; omega

/-- Summing the two tally counters over the driver loop: each processed
identifier increments exactly one of them. -/
theorem tallyFold_sum (run : String → RunOutcome) (pmids : List String) :
    ∀ acc : Nat × Nat,
      (pmids.foldl (fun acc p => tallyStep acc (run p)) acc).1
        + (pmids.foldl (fun acc p => tallyStep acc (run p)) acc).2
        = acc.1 + acc.2 + pmids.length := by
  induction pmids with
  | nil => intro acc; simp
  | cons p ps ih =>
    intro acc
    simp only [List.foldl_cons, List.length_cons]
    rw [ih, tallyStep_sum]
    omega

/-- Filtering after mapping `pyStrip` keeps exactly the lines whose strip
is non-blank. -/
theorem stripFilter_length (lines : List String) :
    ((lines.map pyStrip).filter (fun l => l != "")).length
      = (lines.filter (fun l => pyStrip l != "")).length := by
  induction lines with
  | nil => rfl
  | cons l ls ih =>
    by_cases h : pyStrip l = "" <;> simp [h, ih]

/-! Claim C9. -/

/-- C9: for every identifier list run to completion by the batch driver,
succeeded + failed = total, where total is the number of non-blank input
lines; each identifier is counted exactly once (an exception counting as
a failure, not aborting the batch). -/
theorem batch_tally_partitions_total (lines : List String) (run : String → RunOutcome) :
    (processPmidList lines run).succeeded + (processPmidList lines run).failed
      = (processPmidList lines run).total
    ∧ (processPmidList lines run).total
      = (lines.filter (fun l => pyStrip l != "")).length := by
  constructor
  · simp only [processPmidList]
    rw [tallyFold_sum]
    simp
  · simpa only [processPmidList] using stripFilter_length lines

/-! Claim C10. -/

/-- Successful HTTP outcome: a response was returned (no exception) with
status 200. -/
def isOk200 : Option (Nat × String) → Bool
  | some (status, _) => status == 200
  | none => false

/-- C10: the DOI-based extractor commits to the first target URL that
returns HTTP 200 — the result is whatever HTML extraction yields on that
response (absent included) and the second URL is never requested; the
second URL appears in the request trace only when the first request raised
or returned a non-200 status. -/
theorem fetch_from_doi_first_200_commits (doi : String)
    (get : String → Option (Nat × String)) (extract : String → Option String)
    (body : String) (hdoi : doi ≠ "") :
    (get (doiUrl1 doi) = some (200, body) →
      fetchFromDoi doi get extract = (extract body, [doiUrl1 doi]))
    ∧ (doiUrl2 doi ∈ (fetchFromDoi doi get extract).2 →
      isOk200 (get (doiUrl1 doi)) = false) := by
  constructor
  · intro h1
    simp [fetchFromDoi, hdoi, tryDoiSources, h1]
  · intro h2
    cases hg : get (doiUrl1 doi) with
    | none => simp [isOk200]
    | some r =>
      obtain ⟨status, body1⟩ := r
      by_cases hs : status = 200
      · subst hs
        simp [fetchFromDoi, hdoi, tryDoiSources, hg] at h2
        exact absurd h2 (by
          intro he
          have hlen : (doiUrl2 doi).length = (doiUrl1 doi).length := by rw [he]
          rw [doiUrl1, doiUrl2] at hlen
          simp only [String.length_append] at hlen
          have e1 : ("https://www.ncbi.nlm.nih.gov/pmc/articles/pmid/" : String).length = 47 := rfl
          have e2 : ("https://doi.org/" : String).length = 16 := rfl
          have e3 : ("/" : String).length = 1 := rfl
          omega)
      · simp [isOk200, hs]

/-- Concrete HTTP oracle for the C10 witness: the first target URL of the
doi `10.1/x` answers 200 with body `B`; anything else raises. -/
def getW1 : String → Option (Nat × String) :=
  fun u => if u = doiUrl1 "10.1/x" then some (200, "B") else none

/-- Concrete HTTP oracle for the C10 witness second conjunct: the first
target URL answers 404, the second answers 200. -/
def getW2 : String → Option (Nat × String) :=
  fun u => if u = doiUrl1 "10.1/x" then some (404, "E")
           else if u = doiUrl2 "10.1/x" then some (200, "B") else none

/-- Extraction oracle for the C10 witness: HTML extraction yields the
absent result (below-threshold page). -/
def extractW : String → Option String := fun _ => none

/-- Witness for C10 at a concrete doi and oracles: the first URL answers
200, extraction is absent, and the extractor returns absent after
requesting only the first URL; under the 404-then-200 oracle the second
URL is requested and indeed the first answer was not a 200. -/
theorem fetch_from_doi_first_200_commits_witness :
    fetchFromDoi "10.1/x" getW1 extractW = (none, [doiUrl1 "10.1/x"])
    ∧ isOk200 (getW2 (doiUrl1 "10.1/x")) = false :=
  ⟨(fetch_from_doi_first_200_commits "10.1/x" getW1 extractW "B"
      (by decide)).1 (by decide),
   (fetch_from_doi_first_200_commits "10.1/x" getW2 extractW "B"
      (by decide)).2 (by decide)⟩

/-! Claim C2. -/

/-- C2 counterexample: when the conversion tool exits with a non-zero
code, `convert_pdf_to_text` returns without unlinking either transient
file — the claimed cleanup on every path fails on this path. -/
theorem pdf_temp_files_survive_failure :
    convertPdfToText (some 1) "" = (none, ⟨false, false⟩)
    ∧ (⟨false, false⟩ : PdfTempState) ≠ ⟨true, true⟩ := by
  constructor
  · rfl
  · decide

/-- C2 amended: the two transient files are removed if and only if the
external tool ran to completion and exited 0; on a non-zero exit or an
exception (timeout included) both files are left behind. -/
theorem pdf_temp_cleanup_iff_tool_success (toolRun : Option Int) (txt : String) :
    (convertPdfToText toolRun txt).2
      = if toolRun = some 0 then ⟨true, true⟩ else ⟨false, false⟩ := by
  cases toolRun with
  | none => rfl
  | some rc =>
    by_cases h : rc = 0 <;> simp [convertPdfToText, h]

/-! Claim C1. -/

/-- Concrete structured-repository record for the C1 boundary
counterexample: a single element whose text is exactly 500 non-whitespace
characters, so the cleaned extracted text has length exactly 500. -/
def e500cex : Element :=
  .mk "article" [] (some (String.mk (List.replicate 500 'a'))) [] none

set_option maxRecDepth 100000 in
/-- C1 counterexample: cleaned extracted text of length exactly 500 is
rejected by the structured-repository extractor (the code's threshold is
strict `> 500`), contradicting the claim that length exactly 500 is
accepted. -/
theorem threshold_boundary_500_rejected :
    (pmcCleanText e500cex).length = 500 ∧ fetchFromPmcExtract e500cex = none := by
  constructor
  · decide
  · decide

/-- C1 amended: for each of the three extractors, the cleaned extracted
text is returned as present exactly when its length is at least 501
(strictly greater than 500); length 500 or below — exactly 500 included —
yields the absent result, and a present result is always the full cleaned
text, never a short string. -/
theorem extractors_threshold_strict :
    (∀ e : Element, fetchFromPmcExtract e =
      if 501 ≤ (pmcCleanText e).length then some (pmcCleanText e) else none)
    ∧ (∀ s : String, htmlExtractCore s =
      if 501 ≤ (htmlCleanText s).length then some (htmlCleanText s) else none)
    ∧ (∀ (rc : Int) (txt : String), (convertPdfToText (some rc) txt).1 =
      if rc = 0 ∧ 501 ≤ txt.length then some txt else none) := by
  refine ⟨fun e => ?_, fun s => ?_, fun rc txt => ?_⟩
  · simp only [fetchFromPmcExtract, Nat.succ_le]
  · simp only [htmlExtractCore, Nat.succ_le]
  · by_cases h : rc = 0 <;> simp [convertPdfToText, h, Nat.succ_le]

/-! Claim C3. -/

/-- An identifier-list entry of type `doi`. -/
def isDoiEntry (a : Element) : Bool :=
  getAttr a "IdType" == some "doi"

/-- An identifier-list entry of type `pmc`. -/
def isPmcEntry (a : Element) : Bool :=
  getAttr a "IdType" == some "pmc"

/-- The doi accumulator of the `ArticleId` scan holds the text of the last
`doi`-typed entry seen so far (the loop overwrites without breaking). -/
theorem scanFold_fst (entries : List Element) :
    ∀ acc : Option String × Option String,
      (entries.foldl scanIdStep acc).1
        = ((entries.reverse.find? isDoiEntry).map Element.textOf).getD acc.1 := by
  induction entries with
  | nil => intro acc; rfl
  | cons e es ih =>
    intro acc
    simp only [List.foldl_cons, List.reverse_cons, List.find?_append]
    rw [ih]
    cases hf : es.reverse.find? isDoiEntry with
    | some x => simp
    | none =>
      simp only [Option.none_or, List.find?_cons, List.find?_nil]
      by_cases hd : isDoiEntry e
      · simp only [hd, Option.map_some, Option.getD_some]
        simp only [isDoiEntry, beq_iff_eq] at hd
        simp [scanIdStep, hd]
      · simp only [Bool.not_eq_true] at hd
        simp only [hd, Option.map_none, Option.getD_none]
        rw [isDoiEntry, beq_eq_false_iff_ne] at hd
        by_cases hp : getAttr e "IdType" = some "pmc" <;>
          simp [scanIdStep, hd, hp]

/-- The pmc accumulator of the `ArticleId` scan holds the text of the last
`pmc`-typed entry seen so far. -/
theorem scanFold_snd (entries : List Element) :
    ∀ acc : Option String × Option String,
      (entries.foldl scanIdStep acc).2
        = ((entries.reverse.find? isPmcEntry).map Element.textOf).getD acc.2 := by
  induction entries with
  | nil => intro acc; rfl
  | cons e es ih =>
    intro acc
    simp only [List.foldl_cons, List.reverse_cons, List.find?_append]
    rw [ih]
    cases hf : es.reverse.find? isPmcEntry with
    | some x => simp
    | none =>
      simp only [Option.none_or, List.find?_cons, List.find?_nil]
      by_cases hp : isPmcEntry e
      · simp only [hp, Option.map_some, Option.getD_some]
        simp only [isPmcEntry, beq_iff_eq] at hp
        have hd : getAttr e "IdType" ≠ some "doi" := by simp [hp]
        simp [scanIdStep, hp, hd]
      · simp only [Bool.not_eq_true] at hp
        simp only [hp, Option.map_none, Option.getD_none]
        rw [isPmcEntry, beq_eq_false_iff_ne] at hp
        by_cases hd : getAttr e "IdType" = some "doi" <;>
          simp [scanIdStep, hd, hp]

/-- C3 amended: when the identifier list contains several entries of type
`doi` (resp. `pmc`), the parsed field equals the text of the LAST matching
entry in document order, not the first: each match overwrites the previous
one. -/
theorem scanIds_last_match_wins (entries : List Element) :
    scanIds entries
      = (((entries.reverse.find? isDoiEntry).map Element.textOf).getD (some ""),
         ((entries.reverse.find? isPmcEntry).map Element.textOf).getD (some "")) := by
  have h1 := scanFold_fst entries (some "", some "")
  have h2 := scanFold_snd entries (some "", some "")
  simp only [scanIds]
  exact Prod.ext h1 h2

/-- Concrete record for the C3 counterexample: two `doi`-typed entries
with texts `a` then `b`, in that document order. -/
def docC3 : Element :=
  .mk "PubmedArticle" [] none
    [ .mk "Article" [] none [] none,
      .mk "ArticleIdList" [] none
        [ .mk "ArticleId" [("IdType", "doi")] (some "a") [] none,
          .mk "ArticleId" [("IdType", "doi")] (some "b") [] none ] none ] none

/-- C3 counterexample: with two `doi`-typed entries `a` (first) and `b`
(second), the parsed doi is `b`, the text of the last matching entry, not
of the first as claimed. -/
theorem doi_scan_last_match_cex :
    (parseMetadata docC3).map Metadata.doi = some (some "b")
    ∧ (some "b" : Option String) ≠ some "a" := by
  constructor
  · decide
  · decide

/-! Claim C7. -/

/-- Characters of the whitespace-run substitution output: each one is
either the replacement character or a non-whitespace character of the
input. -/
theorem subRunsAux_mem (rep : Char) :
    ∀ (flag : Bool) (l : List Char) (c : Char),
      c ∈ subRunsAux rep flag l → c = rep ∨ (c ∈ l ∧ pyIsSpace c = false) := by
  intro flag l
  induction l generalizing flag with
  | nil => intro c hc; simp [subRunsAux] at hc
  | cons d ds ih =>
    intro c hc
    by_cases hd : pyIsSpace d
    · cases flag with
      | true =>
        simp only [subRunsAux, hd, if_pos, if_true] at hc
        rcases ih true c hc with h | h
        · exact Or.inl h
        · exact Or.inr ⟨List.mem_cons_of_mem d h.1, h.2⟩
      | false =>
        simp only [subRunsAux, hd, if_pos, if_false] at hc
        rcases List.mem_cons.mp hc with h | h
        · exact Or.inl h
        · rcases ih true c h with h' | h'
          · exact Or.inl h'
          · exact Or.inr ⟨List.mem_cons_of_mem d h'.1, h'.2⟩
    · simp only [subRunsAux, hd, if_neg, Bool.false_eq_true, if_false] at hc
      rcases List.mem_cons.mp hc with h | h
      · subst h
        exact Or.inr ⟨List.mem_cons_self c ds, by simpa using hd⟩
      · rcases ih false c h with h' | h'
        · exact Or.inl h'
        · exact Or.inr ⟨List.mem_cons_of_mem d h'.1, h'.2⟩

/-- C7 amended: the sanitized filename fragment contains only word
characters, underscores and HYPHENS (hyphens survive the character class
`[^\w\s-]`), with every whitespace run collapsed to a single underscore,
and has length at most 100. -/
theorem clean_filename_charset_and_length (s : String) :
    ((cleanFilename s).data.all (fun c => pyIsWordChar c || c == '-')) = true
    ∧ (cleanFilename s).length ≤ 100 := by
  constructor
  · simp only [List.all_eq_true]
    intro c hc
    simp only [cleanFilename] at hc
    have hc' : c ∈ subRunsAux '_' false
        (s.data.filter (fun c => pyIsWordChar c || pyIsSpace c || c == '-')) :=
      List.take_subset 100 _ hc
    rcases subRunsAux_mem '_' false _ c hc' with h | h
    · subst h; decide
    · rcases h with ⟨hmem, hns⟩
      have := List.of_mem_filter hmem
      simp only [Bool.or_eq_true] at this
      rcases this with (hw | hsp) | hh
      · simp [hw]
      · rw [hsp] at hns; exact absurd hns (by simp)
      · simp [hh]
  · simp only [cleanFilename, String.length]
    calc (List.take 100 _).length ≤ 100 := by
          rw [List.length_take]; exact Nat.min_le_left _ _

/-- C7 counterexample: a title with punctuation, a hyphen and a space; the
hyphen survives sanitization, so the result is not made of word characters
and underscores only. -/
theorem clean_filename_keeps_hyphen_cex :
    cleanFilename "a-b!? c" = "a-b_c"
    ∧ ((cleanFilename "a-b!? c").data.all pyIsWordChar) = false := by
  constructor
  · decide
  · decide

/-! Claim C4. -/

/-- The journal-title element the parser reads the journal field from:
`Title` inside `Journal` inside the located `Article`. -/
def journalTitleElem (root : Element) : Option Element :=
  (findDescInside "Article" root).bind
    (fun a => (findDescInside "Journal" a).bind (findDescInside "Title"))

/-- The year element the parser reads the year field from: a `Year` child
of `PubDate` inside the located `Article`. -/
def yearElemOf (root : Element) : Option Element :=
  (findDescInside "Article" root).bind
    (fun a => (findDescInside "PubDate" a).bind (findChild "Year"))

/-- The `ArticleId` entries the parser scans: direct children of the
located `ArticleIdList`, empty when the list element is absent. -/
def articleIdEntries (root : Element) : List Element :=
  match findDescInside "ArticleIdList" root with
  | none => []
  | some l => findAllChild "ArticleId" l

/-- The doi/pmc scan leaves the defaults untouched when no entry of the
respective type occurs. -/
theorem scanIds_of_no_match (entries : List Element)
    (hd : entries.filter isDoiEntry = [])
    (hp : entries.filter isPmcEntry = []) :
    scanIds entries = (some "", some "") := by
  have hd' : entries.reverse.find? isDoiEntry = none := by
    rw [List.find?_eq_none]
    intro x hx
    have := (List.filter_eq_nil_iff.mp hd) x (List.mem_reverse.mp hx)
    simpa using this
  have hp' : entries.reverse.find? isPmcEntry = none := by
    rw [List.find?_eq_none]
    intro x hx
    have := (List.filter_eq_nil_iff.mp hp) x (List.mem_reverse.mp hx)
    simpa using this
  have h1 := scanFold_fst entries (some "", some "")
  have h2 := scanFold_snd entries (some "", some "")
  rw [hd'] at h1
  rw [hp'] at h2
  simp only [scanIds]
  exact Prod.ext (by simpa using h1) (by simpa using h2)

/-- C4 amended: for a successfully parsed record, ABSENCE of the source
element does default the journal, year, doi and pmc fields to the empty
string — but the fields are not always strings: when the element is
present with no text, the parser stores Python `None` (see the
counterexample below). -/
theorem metadata_fields_default_empty (root : Element) (md : Metadata)
    (h : parseMetadata root = some md)
    (hj : journalTitleElem root = none)
    (hy : yearElemOf root = none)
    (hd : (articleIdEntries root).filter isDoiEntry = [])
    (hp : (articleIdEntries root).filter isPmcEntry = []) :
    md.journal = some "" ∧ md.year = some "" ∧ md.doi = some ""
    ∧ md.pmc_id = some "" := by
  cases ha : findDescInside "Article" root with
  | none => rw [parseMetadata, ha] at h; exact absurd h (by simp)
  | some article =>
    rw [parseMetadata, ha] at h
    rw [journalTitleElem, ha, Option.some_bind] at hj
    rw [yearElemOf, ha, Option.some_bind] at hy
    simp only [Option.some.injEq] at h
    subst h
    refine ⟨?_, ?_, ?_, ?_⟩
    · cases hjj : findDescInside "Journal" article with
      | none => simp [hjj]
      | some j =>
        rw [hjj, Option.some_bind] at hj
        simp [hjj, hj]
    · cases hpd : findDescInside "PubDate" article with
      | none => simp [hpd]
      | some pd =>
        rw [hpd, Option.some_bind] at hy
        simp [hpd, hy]
    · cases hl : findDescInside "ArticleIdList" root with
      | none => simp [hl]
      | some l =>
        rw [articleIdEntries, hl] at hd hp
        simp only [hl]
        rw [scanIds_of_no_match _ hd hp]
    · cases hl : findDescInside "ArticleIdList" root with
      | none => simp [hl]
      | some l =>
        rw [articleIdEntries, hl] at hd hp
        simp only [hl]
        rw [scanIds_of_no_match _ hd hp]

/-- Concrete record for the C4 witness: an `Article` with none of the
optional elements present. -/
def docW4 : Element :=
  .mk "PubmedArticleSet" [] none [.mk "Article" [] none [] none] none

/-- The metadata record the parser produces for `docW4`. -/
def mdW4 : Metadata :=
  { title := "Unknown", abstract := "", authors := [], journal := some "",
    year := some "", doi := some "", pmc_id := some "" }

/-- Witness for C4 amended at the concrete record without optional
elements: all four fields are the empty string. -/
theorem metadata_fields_default_empty_witness :
    mdW4.journal = some "" ∧ mdW4.year = some "" ∧ mdW4.doi = some ""
    ∧ mdW4.pmc_id = some "" :=
  metadata_fields_default_empty docW4 mdW4 rfl rfl rfl rfl rfl

/-- Concrete record for the C4 counterexample: the `Journal` element is
present and contains a `Title` element that is empty, so ElementTree gives
it `text = None`. -/
def docC4 : Element :=
  .mk "PubmedArticleSet" [] none
    [ .mk "Article" [] none
        [ .mk "Journal" [] none [.mk "Title" [] none [] none] none ] none ] none

/-- C4 counterexample: the parser returns a record whose journal field is
Python `None` (not a string, not the empty string), because the journal
title element is present but has no text. -/
theorem metadata_field_none_cex :
    (parseMetadata docC4).map Metadata.journal = some none := by
  decide

/-! Claim C5. -/

/-- The title element the parser reads from: `ArticleTitle` inside the
located `Article`. -/
def articleTitleElem (root : Element) : Option Element :=
  (findDescInside "Article" root).bind (findDescInside "ArticleTitle")

/-- C5 amended: for a successfully parsed record whose `ArticleTitle`
element is MISSING, the title is the sentinel `"Unknown"`; the title can
however be the empty string when the element is present without text (see
the counterexample below). -/
theorem title_unknown_when_missing (root : Element) (md : Metadata)
    (h : parseMetadata root = some md)
    (ht : articleTitleElem root = none) :
    md.title = "Unknown" := by
  cases ha : findDescInside "Article" root with
  | none => rw [parseMetadata, ha] at h; exact absurd h (by simp)
  | some article =>
    rw [parseMetadata, ha] at h
    rw [articleTitleElem, ha, Option.some_bind] at ht
    simp only [Option.some.injEq] at h
    subst h
    simp [ht]

/-- Witness for C5 amended: the record parsed from `docW4` (no
`ArticleTitle` element) carries the sentinel title. -/
theorem title_unknown_when_missing_witness : mdW4.title = "Unknown" :=
  title_unknown_when_missing docW4 mdW4 rfl rfl

/-- Concrete record for the C5 counterexample: the `ArticleTitle` element
is present but empty, so its `itertext()` join is the empty string. -/
def docC5 : Element :=
  .mk "PubmedArticleSet" [] none
    [ .mk "Article" [] none [.mk "ArticleTitle" [] none [] none] none ] none

/-- C5 counterexample: the parser returns a record whose title is the
empty string (the `ArticleTitle` element is present but empty),
contradicting the claim that the title is never empty. -/
theorem title_empty_cex :
    (parseMetadata docC5).map Metadata.title = some "" := by
  decide

/-! Claim C8. -/

/-- A string made of a literal head plus an arbitrary rest does not start
with a pattern whose first character differs from the literal's first
character. -/
theorem strStartsWith_lit_append (lit x p : String) (c d : Char)
    (tl tp : List Char)
    (hl : lit.data = c :: tl) (hp : p.data = d :: tp) (h : d ≠ c) :
    strStartsWith (lit ++ x) p = false := by
  simp [strStartsWith, String.data_append, hl, hp, List.isPrefixOf, h]

/-- A list is a (boolean) suffix of anything it is appended to. -/
theorem isSuffixOf_append_self (l1 l2 : List String) :
    l2.isSuffixOf (l1 ++ l2) = true := by
  simp [List.isSuffixOf, List.reverse_append]

/-- No part of the rendered document is a DOI line or a Journal line. -/
def noDoiJournalLines (parts : List String) : Bool :=
  parts.all (fun p => !(strStartsWith p "DOI:" || strStartsWith p "Journal:"))

/-- The C8 claim property over the serializer: the render succeeds, no
part starts with `DOI:` or `Journal:`, and the parts end with the
`ABSTRACT` heading followed by exactly the abstract text. -/
def rendersAbstractOnly (pmid : String) (md : Metadata) : Bool :=
  match buildParts pmid md none with
  | none => false
  | some parts =>
    noDoiJournalLines parts && List.isSuffixOf ["ABSTRACT:\n", md.abstract] parts

/-- C8: for every identifier and every metadata record with empty doi,
journal and year, abstract `"X"` and no full text (and a renderable author
list: no Python-`None` entries), the rendered document omits the DOI and
Journal lines and carries an `ABSTRACT` section whose body is exactly
`"X"`. -/
theorem render_abstract_only_omits_doi_journal (pmid : String) (md : Metadata)
    (hauth : md.authors.any Option.isNone = false)
    (hj : md.journal = some "") (hy : md.year = some "")
    (hd : md.doi = some "") (habs : md.abstract = "X") :
    rendersAbstractOnly pmid md = true := by
  have hjoin : pyJoinOpt ", " md.authors
      = some (String.intercalate ", " (md.authors.map (fun x => x.getD ""))) := by
    simp [pyJoinOpt, hauth]
  have hsw1d : strStartsWith ("PubMed ID: " ++ pmid) "DOI:" = false :=
    strStartsWith_lit_append _ _ _ 'P' 'D' "ubMed ID: ".data "OI:".data rfl rfl
      (by decide)
  have hsw1j : strStartsWith ("PubMed ID: " ++ pmid) "Journal:" = false :=
    strStartsWith_lit_append _ _ _ 'P' 'J' "ubMed ID: ".data "ournal:".data rfl rfl
      (by decide)
  have hsw2d : strStartsWith ("Title: " ++ md.title) "DOI:" = false :=
    strStartsWith_lit_append _ _ _ 'T' 'D' "itle: ".data "OI:".data rfl rfl
      (by decide)
  have hsw2j : strStartsWith ("Title: " ++ md.title) "Journal:" = false :=
    strStartsWith_lit_append _ _ _ 'T' 'J' "itle: ".data "ournal:".data rfl rfl
      (by decide)
  have hsw3d : ∀ a, strStartsWith ("Authors: " ++ a) "DOI:" = false := fun a =>
    strStartsWith_lit_append _ _ _ 'A' 'D' "uthors: ".data "OI:".data rfl rfl
      (by decide)
  have hsw3j : ∀ a, strStartsWith ("Authors: " ++ a) "Journal:" = false := fun a =>
    strStartsWith_lit_append _ _ _ 'A' 'J' "uthors: ".data "ournal:".data rfl rfl
      (by decide)
  have hrule_d : strStartsWith ruleLine "DOI:" = false := by decide
  have hrule_j : strStartsWith ruleLine "Journal:" = false := by decide
  by_cases he : md.authors.isEmpty
  · simp only [rendersAbstractOnly, buildParts, he, if_true, hj, hd, habs,
      pyTruthy, noDoiJournalLines]
    simp [List.all_append, hsw1d, hsw1j, hsw2d, hsw2j, hrule_d, hrule_j,
      isSuffixOf_append_self, List.append_assoc]
    exact ⟨⟨⟨by decide, by decide⟩, by decide, by decide⟩,
      ⟨["PubMed ID: " ++ pmid, "Title: " ++ md.title, ruleLine], rfl⟩⟩
  · simp only [rendersAbstractOnly, buildParts, he, if_false, hjoin,
      Option.map_some, hj, hd, habs, pyTruthy, noDoiJournalLines,
      Bool.false_eq_true]
    simp [List.all_append, hsw1d, hsw1j, hsw2d, hsw2j, hsw3d, hsw3j,
      hrule_d, hrule_j, isSuffixOf_append_self, List.append_assoc]
    exact ⟨⟨⟨by decide, by decide⟩, by decide, by decide⟩,
      ⟨["PubMed ID: " ++ pmid, "Title: " ++ md.title,
        "Authors: " ++ String.intercalate ", " (md.authors.map (fun x => x.getD "")),
        ruleLine], rfl⟩⟩

/-- Concrete metadata for the C8 witness: empty doi/journal/year, abstract
`"X"`, one well-formed author. -/
def mdW8 : Metadata :=
  { title := "T", abstract := "X", authors := [some "A B"], journal := some "",
    year := some "", doi := some "", pmc_id := some "" }

/-- Witness for C8 at a concrete identifier and record. -/
theorem render_abstract_only_omits_doi_journal_witness :
    rendersAbstractOnly "42" mdW8 = true :=
  render_abstract_only_omits_doi_journal "42" mdW8 rfl rfl rfl rfl rfl

/-! Claim C6. -/

/-- The serializer raises exactly when the author list contains a
Python-`None` entry (a truthy list with a non-string item makes
`', '.join` raise `TypeError`). -/
theorem buildParts_none_iff (pmid : String) (md : Metadata) (ft : Option String) :
    buildParts pmid md ft = none ↔ md.authors.any Option.isNone = true := by
  by_cases he : md.authors.isEmpty
  · have hnil : md.authors = [] := by simpa [List.isEmpty_iff] using he
    simp [buildParts, he, hnil]
  · by_cases ha : md.authors.any Option.isNone
    · simp [buildParts, he, pyJoinOpt, ha]
    · simp [buildParts, he, pyJoinOpt, ha]

/-- C6 amended: an identifier is reported failed when metadata fetch or
parse fails (and then no full-text attempt occurs), but ALSO when the
record saves a parsed author list containing a Python `None` entry, which
makes the save step raise; when metadata is fetched and parsed and all
author entries are strings, the outcome is success even when every
full-text extractor returns the absent result.  The hypothesis on the
empty string reflects `ET.fromstring("")` raising inside `parse_metadata`
(an empty response is rejected by `if not xml_data` before parsing). -/
theorem process_pmid_outcome_characterization (w : FetchWorld) (pmid : String)
    (hempty : w.parseMeta "" = none) :
    (w.metaXml = none → processPmid w pmid = ⟨.ok false, false, false⟩)
    ∧ (∀ xml, w.metaXml = some xml → w.parseMeta xml = none →
        processPmid w pmid = ⟨.ok false, false, false⟩)
    ∧ (∀ xml md, w.metaXml = some xml → w.parseMeta xml = some md →
        md.authors.any Option.isNone = false →
        (processPmid w pmid).outcome = .ok true)
    ∧ (∀ xml md, w.metaXml = some xml → w.parseMeta xml = some md →
        md.authors.any Option.isNone = true →
        (processPmid w pmid).outcome = .exn) := by
  refine ⟨?_, ?_, ?_, ?_⟩
  · intro h
    rw [processPmid, h]
  · intro xml h hp
    rw [processPmid, h]
    by_cases hx : xml = ""
    · simp [hx]
    · simp [hx, hp]
  · intro xml md h hp hauth
    have hx : xml ≠ "" := by
      intro hx; rw [hx, hempty] at hp; exact absurd hp (by simp)
    rw [processPmid, h]
    simp only [hx, if_false, hp]
    cases hbp : buildParts pmid md
        (if (!pyTruthy (if pyTruthy md.pmc_id then w.pmcFetch (md.pmc_id.getD "") else none)
             && pyTruthy md.doi) = true
         then w.doiFetch (md.doi.getD "")
         else if pyTruthy md.pmc_id then w.pmcFetch (md.pmc_id.getD "") else none) with
    | none =>
      rw [buildParts_none_iff] at hbp
      rw [hauth] at hbp
      exact absurd hbp (by simp)
    | some parts => simp [hbp]
  · intro xml md h hp hauth
    have hx : xml ≠ "" := by
      intro hx; rw [hx, hempty] at hp; exact absurd hp (by simp)
    rw [processPmid, h]
    simp only [hx, if_false, hp]
    have hbp : ∀ ft, buildParts pmid md ft = none := by
      intro ft; rw [buildParts_none_iff]; exact hauth
    simp [hbp]

/-- Concrete well-formed metadata for the C6 witness: parse succeeds, no
repository id, no doi, no authors — so no full-text source exists and both
extractors are skipped. -/
def mdW6 : Metadata :=
  { title := "T", abstract := "", authors := [], journal := some "",
    year := some "", doi := some "", pmc_id := some "" }

/-- Concrete oracle world for the C6 witness: the metadata response is
`"m"`, parsing it yields `mdW6`, and both extractors return absent. -/
def wW6 : FetchWorld :=
  { metaXml := some "m",
    parseMeta := fun s => if s = "m" then some mdW6 else none,
    pmcFetch := fun _ => none,
    doiFetch := fun _ => none }

/-- Witness for C6 amended: with fetched and parsed metadata and every
full-text source absent, the identifier is still processed successfully. -/
theorem process_pmid_outcome_characterization_witness :
    (processPmid wW6 "1").outcome = .ok true :=
  (process_pmid_outcome_characterization wW6 "1" rfl).2.2.1 "m" mdW6 rfl rfl rfl

/-- Metadata for the C6 counterexample: parses fine but carries a
Python-`None` author entry (produced by an empty `LastName` element with
no `ForeName` sibling). -/
def mdC6 : Metadata :=
  { title := "T", abstract := "A", authors := [none], journal := some "",
    year := some "", doi := some "", pmc_id := some "" }

/-- Oracle world for the C6 counterexample. -/
def wC6 : FetchWorld :=
  { metaXml := some "m",
    parseMeta := fun s => if s = "m" then some mdC6 else none,
    pmcFetch := fun _ => none,
    doiFetch := fun _ => none }

/-- C6 counterexample: metadata fetch succeeded and parse succeeded, yet
processing the identifier raises (the save step's `', '.join` hits a
`None` author), and the driver counts an exception as a failure — so
"failed only when metadata fetch or parse failed" is violated. -/
theorem process_pmid_fail_despite_metadata_cex :
    wC6.metaXml = some "m" ∧ (wC6.parseMeta "m").isSome = true
    ∧ (processPmid wC6 "1").outcome = .exn
    ∧ tallyStep (0, 0) RunOutcome.exn = (0, 1) := by
  refine ⟨rfl, rfl, ?_, rfl⟩
  decide

end PubMedFetch
